import Mathlib

/-!
Shallow embedding of `src/ast_dump.py`:

  def ast_dump(s, indent=None, depth=0):
      if type(s) == list:
          l = []
          for i in s:
              l.append(ast_dump(i, indent, depth=depth+1))
          return '[' + ', '.join(l) + ']'
      return ast.dump(s, indent=indent)

Python runtime values that can reach `ast_dump` are modelled by `PyVal`:
an exact `list` (the only shape the `type(s) == list` test recognizes),
a `tuple`, an instance of a strict subclass of `list` (for which
`type(s) == list` is false in Python), and an opaque leaf value handed
to the external primitive `ast.dump`.  The external primitive itself is
a parameter `dump` of type `Dump`: it receives the value and the
caller's `indent` setting and either returns a rendering or raises,
modelled with `Except`.  A raised exception propagates: in the Python
loop the first failing recursive call aborts the whole call, which the
`Except` plumbing reproduces.
-/

inductive PyVal : Type where
  | pylist (elems : List PyVal)
  | pytuple (elems : List PyVal)
  | listSubclass (elems : List PyVal)
  | astNode (name : String)

/-- The result of `type(s) == list` on a modelled Python value. -/
def PyVal.isList : PyVal → Bool
  | .pylist _ => true
  | _ => false

/-- Type of the external rendering primitive `ast.dump`: it gets the value
and the `indent` keyword argument and either returns a string or raises. -/
abbrev Dump := PyVal → Option Nat → Except String String

mutual

/-- Embedding of the Python function `ast_dump`, parametrized by the external
primitive `dump` (the Python code's `ast.dump`). -/
def ast_dump (dump : Dump) : PyVal → Option Nat → Nat → Except String String
  | PyVal.pylist s, indent, depth =>
    match ast_dump_list dump s indent (depth + 1) with
    | Except.ok l => Except.ok ("[" ++ String.intercalate ", " l ++ "]")
    | Except.error e => Except.error e
  | s, indent, _ => dump s indent

/-- The `for i in s: l.append(ast_dump(i, indent, depth=depth+1))` loop:
formats the elements left to right, aborting at the first raised exception. -/
def ast_dump_list (dump : Dump) :
    List PyVal → Option Nat → Nat → Except String (List String)
  | [], _, _ => Except.ok []
  | i :: rest, indent, depth =>
    match ast_dump dump i indent depth with
    | Except.error e => Except.error e
    | Except.ok fi =>
      match ast_dump_list dump rest indent depth with
      | Except.error e => Except.error e
      | Except.ok l => Except.ok (fi :: l)

end

/-- A concrete model of `ast.dump`, used to instantiate the theorems at
concrete inputs: it renders an AST node as its name and raises a
`TypeError` on anything else (lists, tuples, list subclasses). -/
def astDumpModel : Dump
  | PyVal.astNode name, _ => Except.ok name
  | _, _ => Except.error "TypeError: expected AST"

mutual

/-- Fuel-bounded variant of `ast_dump`: it performs the same computation but
consumes one unit of fuel per recursion level, returning `none` when the fuel
runs out.  `ast_dump` terminating on every input is expressed by the
adequacy theorem: any fuel at least the size of the input suffices and
reproduces `ast_dump`'s answer. -/
def ast_dump_fuel (dump : Dump) :
    Nat → PyVal → Option Nat → Nat → Option (Except String String)
  | 0, _, _, _ => none
  | fuel + 1, PyVal.pylist s, indent, depth =>
    match ast_dump_fuel_list dump fuel s indent (depth + 1) with
    | none => none
    | some (Except.ok l) =>
      some (Except.ok ("[" ++ String.intercalate ", " l ++ "]"))
    | some (Except.error e) => some (Except.error e)
  | _ + 1, s, indent, _ => some (dump s indent)

/-- Fuel-bounded variant of `ast_dump_list`. -/
def ast_dump_fuel_list (dump : Dump) :
    Nat → List PyVal → Option Nat → Nat → Option (Except String (List String))
  | _, [], _, _ => some (Except.ok [])
  | fuel, i :: rest, indent, depth =>
    match ast_dump_fuel dump fuel i indent depth with
    | none => none
    | some (Except.error e) => some (Except.error e)
    | some (Except.ok fi) =>
      match ast_dump_fuel_list dump fuel rest indent depth with
      | none => none
      | some (Except.error e) => some (Except.error e)
      | some (Except.ok l) => some (Except.ok (fi :: l))

end

/-- On any value whose runtime type is not exactly `list`, `ast_dump` is the
external primitive applied to the value and the unchanged `indent`. -/
theorem ast_dump_not_list (dump : Dump) (s : PyVal) (indent : Option Nat)
    (depth : Nat) (h : s.isList = false) :
    ast_dump dump s indent depth = dump s indent := by
  cases s with
  | pylist es => simp [PyVal.isList] at h
  | pytuple es => simp [ast_dump]
  | listSubclass es => simp [ast_dump]
  | astNode n => simp [ast_dump]

/-- The element loop of `ast_dump` is `List.mapM` of the recursive call in the
`Except` monad. -/
theorem ast_dump_list_eq_mapM (dump : Dump) (es : List PyVal)
    (indent : Option Nat) (depth : Nat) :
    ast_dump_list dump es indent depth =
      es.mapM (fun x => ast_dump dump x indent depth) := by
  induction es with
  | nil => simp [ast_dump_list, List.mapM, List.mapM.loop, pure, Except.pure]
  | cons x xs ih =>
    rw [List.mapM_cons]
    simp only [ast_dump_list, ih]
    cases ast_dump dump x indent depth with
    | error e => rfl
    | ok fi =>
      cases xs.mapM (fun x => ast_dump dump x indent depth) with
      | error e => rfl
      | ok l => rfl

mutual

/-- The `depth` argument never influences the result of `ast_dump`. -/
theorem ast_dump_depth_eq (dump : Dump) (s : PyVal) (indent : Option Nat)
    (d1 d2 : Nat) : ast_dump dump s indent d1 = ast_dump dump s indent d2 := by
  cases s with
  | pylist es =>
    simp only [ast_dump]
    rw [ast_dump_list_depth_eq dump es indent (d1 + 1) (d2 + 1)]
  | pytuple es => simp [ast_dump]
  | listSubclass es => simp [ast_dump]
  | astNode n => simp [ast_dump]

/-- The `depth` argument never influences the result of `ast_dump_list`. -/
theorem ast_dump_list_depth_eq (dump : Dump) (es : List PyVal)
    (indent : Option Nat) (d1 d2 : Nat) :
    ast_dump_list dump es indent d1 = ast_dump_list dump es indent d2 := by
  cases es with
  | nil => rfl
  | cons x xs =>
    simp only [ast_dump_list]
    rw [ast_dump_depth_eq dump x indent d1 d2,
      ast_dump_list_depth_eq dump xs indent d1 d2]

end

mutual

/-- Any fuel at least the size of the input is enough: the fuel-bounded
computation finishes and agrees with `ast_dump`. -/
theorem ast_dump_fuel_sound (dump : Dump) (fuel : Nat) (s : PyVal)
    (indent : Option Nat) (depth : Nat) (h : sizeOf s ≤ fuel) :
    ast_dump_fuel dump fuel s indent depth =
      some (ast_dump dump s indent depth) := by
  cases s with
  | pylist es =>
    cases fuel with
    | zero =>
      simp only [PyVal.pylist.sizeOf_spec] at h
      omega
    | succ f =>
      have hes : sizeOf es ≤ f := by
        simp only [PyVal.pylist.sizeOf_spec] at h
        omega
      simp only [ast_dump_fuel, ast_dump]
      rw [ast_dump_fuel_list_sound dump f es indent (depth + 1) hes]
      cases ast_dump_list dump es indent (depth + 1) with
      | error e => rfl
      | ok l => rfl
  | pytuple es =>
    cases fuel with
    | zero =>
      simp only [PyVal.pytuple.sizeOf_spec] at h
      omega
    | succ f => simp [ast_dump_fuel, ast_dump]
  | listSubclass es =>
    cases fuel with
    | zero =>
      simp only [PyVal.listSubclass.sizeOf_spec] at h
      omega
    | succ f => simp [ast_dump_fuel, ast_dump]
  | astNode n =>
    cases fuel with
    | zero =>
      simp only [PyVal.astNode.sizeOf_spec] at h
      omega
    | succ f => simp [ast_dump_fuel, ast_dump]

/-- Any fuel at least the size of the element list is enough for the
fuel-bounded element loop. -/
theorem ast_dump_fuel_list_sound (dump : Dump) (fuel : Nat) (es : List PyVal)
    (indent : Option Nat) (depth : Nat) (h : sizeOf es ≤ fuel) :
    ast_dump_fuel_list dump fuel es indent depth =
      some (ast_dump_list dump es indent depth) := by
  cases es with
  | nil => simp [ast_dump_fuel_list, ast_dump_list]
  | cons x xs =>
    have hx : sizeOf x ≤ fuel := by
      simp only [List.cons.sizeOf_spec] at h
      omega
    have hxs : sizeOf xs ≤ fuel := by
      simp only [List.cons.sizeOf_spec] at h
      omega
    simp only [ast_dump_fuel_list, ast_dump_list]
    rw [ast_dump_fuel_sound dump fuel x indent depth hx,
      ast_dump_fuel_list_sound dump fuel xs indent depth hxs]
    cases ast_dump dump x indent depth with
    | error e => rfl
    | ok fi =>
      cases ast_dump_list dump xs indent depth with
      | error e => rfl
      | ok l => rfl

end

/-- C1: for every input node that is a sequence, `ast_dump` returns
`"["` ++ the comma-space-joined results of recursively formatting each
element ++ `"]"`, where each element is formatted by the same operation with
the same `indent` and with `depth` incremented by one. -/
theorem c1_seq_formats_elements (dump : Dump) (es : List PyVal)
    (indent : Option Nat) (depth : Nat) (l : List String)
    (h : es.mapM (fun x => ast_dump dump x indent (depth + 1)) = Except.ok l) :
    ast_dump dump (PyVal.pylist es) indent depth =
      Except.ok ("[" ++ String.intercalate ", " l ++ "]") := by
  simp only [ast_dump, ast_dump_list_eq_mapM, h]

/-- Witness for C1 at the concrete sequence `[astNode "A", astNode "B"]`. -/
theorem c1_seq_formats_elements_witness :
    ([PyVal.astNode "A", PyVal.astNode "B"].mapM
        (fun x => ast_dump astDumpModel x none (0 + 1)) =
      Except.ok ["A", "B"]) ∧
    ast_dump astDumpModel (PyVal.pylist [PyVal.astNode "A", PyVal.astNode "B"])
        none 0 =
      Except.ok ("[" ++ String.intercalate ", " ["A", "B"] ++ "]") := by
  have h : [PyVal.astNode "A", PyVal.astNode "B"].mapM
      (fun x => ast_dump astDumpModel x none (0 + 1)) =
      Except.ok ["A", "B"] := rfl
  exact ⟨h, c1_seq_formats_elements astDumpModel _ none 0 ["A", "B"] h⟩

/-- C2: for every input node that is not a sequence, `ast_dump` returns
exactly the result of the external rendering primitive applied to that node,
with the caller's `indent` setting passed through unchanged. -/
theorem c2_single_node_delegates (dump : Dump) (s : PyVal) (indent : Option Nat)
    (depth : Nat) (h : s.isList = false) :
    ast_dump dump s indent depth = dump s indent :=
  ast_dump_not_list dump s indent depth h

/-- Witness for C2 at the concrete node `astNode "Name"` with `indent = 4`. -/
theorem c2_single_node_delegates_witness :
    (PyVal.astNode "Name").isList = false ∧
    ast_dump astDumpModel (PyVal.astNode "Name") (some 4) 0 =
      astDumpModel (PyVal.astNode "Name") (some 4) :=
  ⟨rfl, c2_single_node_delegates astDumpModel (PyVal.astNode "Name") (some 4) 0 rfl⟩

/-- C3: if the input node is not a sequence and the external primitive raises
an error on it, `ast_dump` fails with exactly that error, propagated unchanged
with no local recovery and no added context. -/
theorem c3_error_propagates (dump : Dump) (s : PyVal) (indent : Option Nat)
    (depth : Nat) (e : String) (h1 : s.isList = false)
    (h2 : dump s indent = Except.error e) :
    ast_dump dump s indent depth = Except.error e := by
  rw [ast_dump_not_list dump s indent depth h1, h2]

/-- Witness for C3 at the concrete node `pytuple []`, which the model
primitive rejects with a `TypeError`. -/
theorem c3_error_propagates_witness :
    (PyVal.pytuple []).isList = false ∧
    astDumpModel (PyVal.pytuple []) none =
      Except.error "TypeError: expected AST" ∧
    ast_dump astDumpModel (PyVal.pytuple []) none 0 =
      Except.error "TypeError: expected AST" :=
  ⟨rfl, rfl,
    c3_error_propagates astDumpModel (PyVal.pytuple []) none 0
      "TypeError: expected AST" rfl rfl⟩

/-- C4: for every node, indent setting and pair of depth values, the results
of `ast_dump` coincide; the `depth` parameter cannot affect the result. -/
theorem c4_depth_has_no_effect (dump : Dump) (s : PyVal) (indent : Option Nat)
    (d1 d2 : Nat) : ast_dump dump s indent d1 = ast_dump dump s indent d2 :=
  ast_dump_depth_eq dump s indent d1 d2

/-- C5: calling `ast_dump` twice with the same node and the same indentation
yields identical strings; as a pure function of its arguments the embedding
has no side effects on its inputs or any other state. -/
theorem c5_deterministic (dump : Dump) (s1 s2 : PyVal) (i1 i2 : Option Nat)
    (d1 d2 : Nat) (hs : s1 = s2) (hi : i1 = i2) (hd : d1 = d2) :
    ast_dump dump s1 i1 d1 = ast_dump dump s2 i2 d2 := by
  rw [hs, hi, hd]

/-- Witness for C5: two calls at the same concrete arguments agree. -/
theorem c5_deterministic_witness :
    ast_dump astDumpModel (PyVal.pylist [PyVal.astNode "A"]) (some 2) 0 =
      ast_dump astDumpModel (PyVal.pylist [PyVal.astNode "A"]) (some 2) 0 :=
  c5_deterministic astDumpModel (PyVal.pylist [PyVal.astNode "A"])
    (PyVal.pylist [PyVal.astNode "A"]) (some 2) (some 2) 0 0 rfl rfl rfl

/-- C6: for the empty sequence, `ast_dump` returns the literal string `"[]"`
for every indent and depth value. -/
theorem c6_empty_seq (dump : Dump) (indent : Option Nat) (depth : Nat) :
    ast_dump dump (PyVal.pylist []) indent depth = Except.ok "[]" := by
  simp only [ast_dump, ast_dump_list]
  rfl

/-- C7: for every two-element sequence `[a, b]`, `ast_dump` returns
`"["` ++ format of `a` ++ `", "` ++ format of `b` ++ `"]"`: elements are
separated by exactly the two-character separator and keep their order. -/
theorem c7_two_elements (dump : Dump) (a b : PyVal) (indent : Option Nat)
    (depth : Nat) (fa fb : String)
    (ha : ast_dump dump a indent (depth + 1) = Except.ok fa)
    (hb : ast_dump dump b indent (depth + 1) = Except.ok fb) :
    ast_dump dump (PyVal.pylist [a, b]) indent depth =
      Except.ok ("[" ++ fa ++ ", " ++ fb ++ "]") := by
  simp only [ast_dump, ast_dump_list, ha, hb]
  rfl

/-- Witness for C7 at the concrete sequence `[astNode "A", astNode "B"]`. -/
theorem c7_two_elements_witness :
    ast_dump astDumpModel (PyVal.astNode "A") none (0 + 1) = Except.ok "A" ∧
    ast_dump astDumpModel (PyVal.astNode "B") none (0 + 1) = Except.ok "B" ∧
    ast_dump astDumpModel (PyVal.pylist [PyVal.astNode "A", PyVal.astNode "B"])
        none 0 = Except.ok ("[" ++ "A" ++ ", " ++ "B" ++ "]") := by
  have ha : ast_dump astDumpModel (PyVal.astNode "A") none (0 + 1) =
      Except.ok "A" := by simp [ast_dump, astDumpModel]
  have hb : ast_dump astDumpModel (PyVal.astNode "B") none (0 + 1) =
      Except.ok "B" := by simp [ast_dump, astDumpModel]
  exact ⟨ha, hb,
    c7_two_elements astDumpModel (PyVal.astNode "A") (PyVal.astNode "B")
      none 0 "A" "B" ha hb⟩

/-- C8: for every nested sequence `[[a], b]`, `ast_dump` returns
`"[["` ++ format of `a` ++ `"], "` ++ format of `b` ++ `"]"`: nested
sequences are recursively formatted with their own brackets in place. -/
theorem c8_nested_seq (dump : Dump) (a b : PyVal) (indent : Option Nat)
    (depth : Nat) (fa fb : String)
    (ha : ast_dump dump a indent (depth + 2) = Except.ok fa)
    (hb : ast_dump dump b indent (depth + 1) = Except.ok fb) :
    ast_dump dump (PyVal.pylist [PyVal.pylist [a], b]) indent depth =
      Except.ok ("[[" ++ fa ++ "], " ++ fb ++ "]") := by
  have ha2 : ast_dump dump a indent (depth + 1 + 1) = Except.ok fa := by
    rw [show depth + 1 + 1 = depth + 2 by omega]
    exact ha
  simp only [ast_dump, ast_dump_list, ha2, hb]
  have h1 : String.intercalate ", " [fa] = fa := rfl
  rw [h1]
  have h2 : String.intercalate ", " ["[" ++ fa ++ "]", fb] =
      "[" ++ fa ++ "]" ++ ", " ++ fb := rfl
  rw [h2]
  simp only [Except.ok.injEq]
  apply String.ext
  simp [String.data_append]

/-- Witness for C8 at the concrete sequence `[[astNode "A"], astNode "B"]`. -/
theorem c8_nested_seq_witness :
    ast_dump astDumpModel (PyVal.astNode "A") none (0 + 2) = Except.ok "A" ∧
    ast_dump astDumpModel (PyVal.astNode "B") none (0 + 1) = Except.ok "B" ∧
    ast_dump astDumpModel
        (PyVal.pylist [PyVal.pylist [PyVal.astNode "A"], PyVal.astNode "B"])
        none 0 = Except.ok ("[[" ++ "A" ++ "], " ++ "B" ++ "]") := by
  have ha : ast_dump astDumpModel (PyVal.astNode "A") none (0 + 2) =
      Except.ok "A" := by simp [ast_dump, astDumpModel]
  have hb : ast_dump astDumpModel (PyVal.astNode "B") none (0 + 1) =
      Except.ok "B" := by simp [ast_dump, astDumpModel]
  exact ⟨ha, hb,
    c8_nested_seq astDumpModel (PyVal.astNode "A") (PyVal.astNode "B")
      none 0 "A" "B" ha hb⟩

/-- C9: only a value whose runtime type is exactly `list` is treated as a
sequence: a tuple and an instance of a strict subclass of `list` are handed
to the external primitive instead (and so fail whenever it rejects them). -/
theorem c9_exact_list_type_only (dump : Dump) (es ds : List PyVal)
    (indent : Option Nat) (depth : Nat) :
    ast_dump dump (PyVal.pytuple es) indent depth =
        dump (PyVal.pytuple es) indent ∧
      ast_dump dump (PyVal.listSubclass ds) indent depth =
        dump (PyVal.listSubclass ds) indent := by
  constructor
  · simp [ast_dump]
  · simp [ast_dump]

/-- C10: `ast_dump` terminates on every finitely nested list structure: fuel
at least the size of the input suffices for the fuel-bounded variant, which
then agrees with the total function. -/
theorem c10_terminates (dump : Dump) (fuel : Nat) (s : PyVal)
    (indent : Option Nat) (depth : Nat) (h : sizeOf s ≤ fuel) :
    ast_dump_fuel dump fuel s indent depth =
      some (ast_dump dump s indent depth) :=
  ast_dump_fuel_sound dump fuel s indent depth h

/-- Witness for C10 at a concrete nested input and concrete fuel. -/
theorem c10_terminates_witness :
    sizeOf (PyVal.pylist [PyVal.pylist [], PyVal.pylist [PyVal.pylist []]]) ≤ 100 ∧
    ast_dump_fuel astDumpModel 100
        (PyVal.pylist [PyVal.pylist [], PyVal.pylist [PyVal.pylist []]]) none 0 =
      some (ast_dump astDumpModel
        (PyVal.pylist [PyVal.pylist [], PyVal.pylist [PyVal.pylist []]]) none 0) := by
  have h : sizeOf
      (PyVal.pylist [PyVal.pylist [], PyVal.pylist [PyVal.pylist []]]) ≤ 100 := by
    decide
  exact ⟨h,
    c10_terminates astDumpModel 100
      (PyVal.pylist [PyVal.pylist [], PyVal.pylist [PyVal.pylist []]]) none 0 h⟩
